import Mathlib

/-!
Verification development for the `mys-relay` backplane.

The Rust sources are shallowly embedded: pure functions become Lean
functions, database/cache state becomes explicit state records, machine
integers become `Int`/`Nat`, fallible code returns `Except`/`Option`.
External collaborators that live outside this repository (the AES-GCM
cipher, HKDF, base64, the JWT library, the push providers and the
filesystem) are modelled symbolically, either as explicit function
parameters or as structures carrying their documented contracts; every
control-flow decision made by the repository's own code is translated
faithfully from the source.
-/

/- ===== Byte/string groundwork =====
Rust `str` values are UTF-8; `str::len` is the byte length, `starts_with`
and `contains` are byte-substring tests, and `<` compares bytes
lexicographically.  We keep Lean `String` as the carrier and give the
byte-level view through an explicit UTF-8 encoder. -/

/-- UTF-8 encoding of a single character (byte values as `Nat`). -/
def charUtf8 (c : Char) : List Nat :=
  let n := c.toNat
  if n < 0x80 then [n]
  else if n < 0x800 then [0xC0 + n / 64, 0x80 + n % 64]
  else if n < 0x10000 then [0xE0 + n / 4096, 0x80 + n / 64 % 64, 0x80 + n % 64]
  else [0xF0 + n / 262144, 0x80 + n / 4096 % 64, 0x80 + n / 64 % 64, 0x80 + n % 64]

/-- The UTF-8 bytes of a string (Rust `str::as_bytes`). -/
def strBytes (s : String) : List Nat :=
  (s.data.map charUtf8).flatten

/-- Rust `str::len`: the UTF-8 byte length. -/
def rustLen (s : String) : Nat :=
  (strBytes s).length

/-- Rust `str::starts_with` for string patterns.  On valid UTF-8, byte-level
prefix coincides with character-level prefix. -/
def strStartsWith (s pat : String) : Bool :=
  pat.data.isPrefixOf s.data

/-- `pat` occurs as a contiguous run inside `s` (character level). -/
def containsSub (pat : List Char) : List Char → Bool
  | [] => pat.isEmpty
  | c :: rest => pat.isPrefixOf (c :: rest) || containsSub pat rest

/-- Rust `str::contains` for string patterns.  UTF-8 is self-synchronising,
so byte-substring search coincides with character-substring search. -/
def strContains (s pat : String) : Bool :=
  containsSub pat.data s.data

/- ===== C1 : outbox topic routing (relay-outbox/src/poller.rs, publish_event) ===== -/

/-- Destination topic computed from the event type, translated from the
`match` at the top of `publish_event` in `relay-outbox/src/poller.rs`. -/
def publishEventTopic (eventType : String) : String :=
  if strStartsWith eventType "like." then "events.like.created"
  else if strStartsWith eventType "comment." then "events.comment.created"
  else if strStartsWith eventType "message." then "events.message.created"
  else if strStartsWith eventType "follow." then "events.follow.created"
  else if strStartsWith eventType "unfollow." then "events.unfollow.created"
  else "events.unknown"

lemma strStartsWith_head {s p : String} (h : strStartsWith s p = true) :
    p.data.head? = none ∨ s.data.head? = p.data.head? := by
  cases hp : p.data with
  | nil => exact Or.inl rfl
  | cons c cs =>
    cases hs : s.data with
    | nil =>
      exfalso
      unfold strStartsWith at h
      rw [hp, hs] at h
      simp [List.isPrefixOf] at h
    | cons d ds =>
      unfold strStartsWith at h
      rw [hp, hs] at h
      simp only [List.isPrefixOf, Bool.and_eq_true, beq_iff_eq] at h
      exact Or.inr (by simp [h.1])

lemma startsWith_excl {s : String} (p q : String) {c d : Char}
    (hpc : p.data.head? = some c) (hqd : q.data.head? = some d) (hcd : c ≠ d)
    (hp : strStartsWith s p = true) : strStartsWith s q = false := by
  by_contra h
  rw [Bool.not_eq_false] at h
  rcases strStartsWith_head hp with h1 | h1
  · rw [hpc] at h1; cases h1
  rcases strStartsWith_head h with h2 | h2
  · rw [hqd] at h2; cases h2
  rw [hpc] at h1
  rw [hqd] at h2
  rw [h1] at h2
  exact hcd (Option.some.inj h2)

/-- C1 (counterexample): the spec's routing table says `reaction.` maps to
`events.post.reaction`, but the code's `match` has no `reaction.` arm at
all, so `reaction.created` lands on the catch-all `events.unknown`. -/
theorem publishEventTopic_reaction_cx :
    publishEventTopic "reaction.created" = "events.unknown" ∧
    publishEventTopic "reaction.created" ≠ "events.post.reaction" := by
  constructor
  · rfl
  · intro h
    have := congrArg String.data h
    simp [publishEventTopic, strStartsWith] at this

/-- C1 (amended): the routing table actually implemented by `publish_event`
maps `like.` to events.like.created, `comment.` to events.comment.created,
`message.` to events.message.created, `follow.` to events.follow.created,
`unfollow.` to events.unfollow.created, and every other event type to
events.unknown. -/
theorem publishEventTopic_table (t : String) :
    (strStartsWith t "like." = true → publishEventTopic t = "events.like.created") ∧
    (strStartsWith t "comment." = true → publishEventTopic t = "events.comment.created") ∧
    (strStartsWith t "message." = true → publishEventTopic t = "events.message.created") ∧
    (strStartsWith t "follow." = true → publishEventTopic t = "events.follow.created") ∧
    (strStartsWith t "unfollow." = true → publishEventTopic t = "events.unfollow.created") ∧
    (strStartsWith t "like." = false → strStartsWith t "comment." = false →
     strStartsWith t "message." = false → strStartsWith t "follow." = false →
     strStartsWith t "unfollow." = false → publishEventTopic t = "events.unknown") := by
  refine ⟨?_, ?_, ?_, ?_, ?_, ?_⟩
  · intro h
    simp [publishEventTopic, h]
  · intro h
    have h1 := startsWith_excl "comment." "like." rfl rfl (by decide) h
    simp [publishEventTopic, h, h1]
  · intro h
    have h1 := startsWith_excl "message." "like." rfl rfl (by decide) h
    have h2 := startsWith_excl "message." "comment." rfl rfl (by decide) h
    simp [publishEventTopic, h, h1, h2]
  · intro h
    have h1 := startsWith_excl "follow." "like." rfl rfl (by decide) h
    have h2 := startsWith_excl "follow." "comment." rfl rfl (by decide) h
    have h3 := startsWith_excl "follow." "message." rfl rfl (by decide) h
    simp [publishEventTopic, h, h1, h2, h3]
  · intro h
    have h1 := startsWith_excl "unfollow." "like." rfl rfl (by decide) h
    have h2 := startsWith_excl "unfollow." "comment." rfl rfl (by decide) h
    have h3 := startsWith_excl "unfollow." "message." rfl rfl (by decide) h
    have h4 := startsWith_excl "unfollow." "follow." rfl rfl (by decide) h
    simp [publishEventTopic, h, h1, h2, h3, h4]
  · intro h1 h2 h3 h4 h5
    simp [publishEventTopic, h1, h2, h3, h4, h5]

/-- C1 witness: the amended routing table evaluated at concrete event types. -/
theorem publishEventTopic_table_witness :
    publishEventTopic "like.created" = "events.like.created" ∧
    publishEventTopic "unfollow.created" = "events.unfollow.created" ∧
    publishEventTopic "tip.created" = "events.unknown" := by
  refine ⟨(publishEventTopic_table "like.created").1 (by decide),
    ?_, ?_⟩
  · exact (publishEventTopic_table "unfollow.created").2.2.2.2.1 (by decide)
  · exact (publishEventTopic_table "tip.created").2.2.2.2.2 (by decide) (by decide)
      (by decide) (by decide) (by decide)

/- ===== C2 : outbox polling (relay-outbox/src/poller.rs, poll_and_publish) =====
The `relay_outbox` table row (all columns of the diesel schema; `Jsonb`
payloads are carried opaquely as strings, timestamps as `Int`). -/

structure OutboxRow where
  id : Int
  event_type : String
  event_data : String
  event_id : Option String
  transaction_id : Option String
  created_at : Int
  processed_at : Option Int
  published_at : Option Int
  retry_count : Int
  error_message : Option String
deriving DecidableEq, Inhabited

def BATCH_SIZE : Nat := 100

def MAX_RETRIES : Int := 3

/-- The selection query of `poll_and_publish`: rows with `processed_at`
null and `retry_count < MAX_RETRIES`, ordered by `created_at` ascending,
limited to `BATCH_SIZE`. -/
def pollSelectBatch (db : List OutboxRow) : List OutboxRow :=
  ((db.filter fun r => r.processed_at.isNone && decide (r.retry_count < MAX_RETRIES)).mergeSort
    (fun a b => decide (a.created_at ≤ b.created_at))).take BATCH_SIZE

/-- Row update applied for one selected event: on producer ack set
`processed_at`/`published_at`; on producer failure bump `retry_count` and
store the error string. -/
def outboxRowUpdate (ev : OutboxRow) (ok : Bool) (now : Int) (r : OutboxRow) : OutboxRow :=
  if r.id = ev.id then
    if ok then
      { r with processed_at := some now, published_at := some now }
    else
      { r with retry_count := r.retry_count + 1, error_message := some "publish error" }
  else r

/-- One tick of `poll_and_publish` over the table state: select the batch,
then apply each row's success or failure update in order.  `pok` gives the
producer outcome for each selected event. -/
def pollStep (db : List OutboxRow) (pok : OutboxRow → Bool) (now : Int) : List OutboxRow :=
  (pollSelectBatch db).foldl (fun acc ev => acc.map (outboxRowUpdate ev (pok ev) now)) db

lemma foldl_map_eq_map_foldl (step : OutboxRow → Bool) (now : Int) :
    ∀ (batch db : List OutboxRow),
      batch.foldl (fun acc ev => acc.map (outboxRowUpdate ev (step ev) now)) db
        = db.map (fun r => batch.foldl (fun x ev => outboxRowUpdate ev (step ev) now x) r) := by
  intro batch
  induction batch with
  | nil => intro db; simp
  | cons e es ih =>
    intro db
    simp only [List.foldl_cons]
    rw [ih (db.map (outboxRowUpdate e (step e) now))]
    rw [List.map_map]
    rfl

lemma outboxRowUpdate_keeps_processed (ev : OutboxRow) (ok : Bool) (now : Int)
    (r : OutboxRow) (h : r.processed_at.isSome = true) :
    (outboxRowUpdate ev ok now r).processed_at.isSome = true := by
  unfold outboxRowUpdate
  split
  · split <;> simp_all
  · exact h

lemma foldl_update_keeps_processed (step : OutboxRow → Bool) (now : Int) :
    ∀ (batch : List OutboxRow) (r : OutboxRow), r.processed_at.isSome = true →
      (batch.foldl (fun x ev => outboxRowUpdate ev (step ev) now x) r).processed_at.isSome = true := by
  intro batch
  induction batch with
  | nil => intro r h; simpa using h
  | cons e es ih =>
    intro r h
    simp only [List.foldl_cons]
    exact ih _ (outboxRowUpdate_keeps_processed e (step e) now r h)

/-- C2: each poll tick selects only rows with `processed_at` null and
`retry_count < MAX_RETRIES`, at most `BATCH_SIZE` of them, ordered by
`created_at` ascending; a row whose `processed_at` is set is never
selected, and the tick's updates never clear `processed_at` of any row
(position by position), so no row leaves the processed state. -/
theorem outbox_poll_invariants (db : List OutboxRow) (pok : OutboxRow → Bool) (now : Int) :
    (∀ r ∈ pollSelectBatch db, r.processed_at = none ∧ r.retry_count < MAX_RETRIES) ∧
    (pollSelectBatch db).length ≤ BATCH_SIZE ∧
    List.Pairwise (fun a b => a.created_at ≤ b.created_at) (pollSelectBatch db) ∧
    (∀ r ∈ db, r.processed_at.isSome = true → r ∉ pollSelectBatch db) ∧
    (pollStep db pok now).length = db.length ∧
    (∀ i r, db.get? i = some r → r.processed_at.isSome = true →
      ∃ r', (pollStep db pok now).get? i = some r' ∧ r'.processed_at.isSome = true) := by
  have hmem : ∀ r ∈ pollSelectBatch db,
      r.processed_at = none ∧ r.retry_count < MAX_RETRIES := by
    intro r hr
    have h1 : r ∈ (db.filter fun r =>
        r.processed_at.isNone && decide (r.retry_count < MAX_RETRIES)) := by
      have := List.mem_of_mem_take hr
      exact List.mem_mergeSort.mp this
    have := List.of_mem_filter h1
    simp only [Bool.and_eq_true, Option.isNone_iff_eq_none, decide_eq_true_eq] at this
    exact this
  refine ⟨hmem, ?_, ?_, ?_, ?_, ?_⟩
  · unfold pollSelectBatch
    exact List.length_take_le _ _
  · have hs := @List.sorted_mergeSort OutboxRow
      (fun a b : OutboxRow => decide (a.created_at ≤ b.created_at))
      (fun a b c hab hbc => by
        simp only [decide_eq_true_eq] at *
        exact le_trans hab hbc)
      (fun a b => by
        simp only [Bool.or_eq_true, decide_eq_true_eq]
        exact le_total a.created_at b.created_at)
      (db.filter fun r => r.processed_at.isNone && decide (r.retry_count < MAX_RETRIES))
    have := List.Pairwise.sublist (List.take_sublist BATCH_SIZE _) hs
    exact this.imp (by simp)
  · intro r _ hp hin
    have := (hmem r hin).1
    rw [this] at hp
    simp at hp
  · unfold pollStep
    rw [foldl_map_eq_map_foldl]
    simp
  · intro i r hget hp
    unfold pollStep
    rw [foldl_map_eq_map_foldl]
    refine ⟨(pollSelectBatch db).foldl
      (fun x ev => outboxRowUpdate ev (pok ev) now x) r, ?_, ?_⟩
    · simp only [List.get?_eq_getElem?, List.getElem?_map] at *
      rw [hget]
      rfl
    · exact foldl_update_keeps_processed pok now _ r hp

/-- A processed outbox row used as concrete witness data. -/
def wRowProcessed : OutboxRow :=
  { id := 1, event_type := "like.created", event_data := "p", event_id := some "e1",
    transaction_id := none, created_at := 5, processed_at := some 7,
    published_at := some 7, retry_count := 0, error_message := none }

/-- An unprocessed outbox row used as concrete witness data. -/
def wRowPending : OutboxRow :=
  { id := 2, event_type := "follow.created", event_data := "q", event_id := none,
    transaction_id := some "t2", created_at := 6, processed_at := none,
    published_at := none, retry_count := 1, error_message := none }

/-- C2 witness: the invariants evaluated on a concrete two-row table. -/
theorem outbox_poll_invariants_witness :
    wRowProcessed ∉ pollSelectBatch [wRowProcessed, wRowPending] ∧
    (∃ r', (pollStep [wRowProcessed, wRowPending] (fun _ => true) 9).get? 0 = some r' ∧
      r'.processed_at.isSome = true) := by
  have h := outbox_poll_invariants [wRowProcessed, wRowPending] (fun _ => true) 9
  exact ⟨h.2.2.2.1 wRowProcessed (by simp) (by rfl),
    h.2.2.2.2.2 0 wRowProcessed (by rfl) (by rfl)⟩

/- ===== C4 : canonical conversation id =====
Both `get_or_create_conversation` (relay-messaging/src/service.rs) and
`send_message` (relay-api/src/handlers.rs) pick the lexicographically
smaller address first and join with a colon.  Rust's `String` order is
byte-lexicographic, which agrees with Lean's character-lexicographic
`String` order on valid UTF-8. -/

/-- Conversation id as computed by the messaging worker's
`get_or_create_conversation`. -/
def getOrCreateConversationId (user1 user2 : String) : String :=
  let p : String × String := if user1 < user2 then (user1, user2) else (user2, user1)
  p.1 ++ ":" ++ p.2

/-- Conversation id as computed by the `send_message` API handler. -/
def sendMessageConversationId (userAddress recipientAddress : String) : String :=
  let p : String × String :=
    if userAddress < recipientAddress then (userAddress, recipientAddress)
    else (recipientAddress, userAddress)
  p.1 ++ ":" ++ p.2

/-- The spec's wording: the id is the lexicographically sorted pair joined
by a colon. -/
def specConversationId (a b : String) : String :=
  min a b ++ ":" ++ max a b

/-- C4: the conversation id is symmetric in the two wallet addresses and
equals the colon-joined lexicographically sorted pair, in both the
messaging worker and the send-message handler. -/
theorem conversation_id_canonical (a b : String) :
    getOrCreateConversationId a b = getOrCreateConversationId b a ∧
    sendMessageConversationId a b = sendMessageConversationId b a ∧
    getOrCreateConversationId a b = specConversationId a b ∧
    sendMessageConversationId a b = getOrCreateConversationId a b := by
  have key : ∀ x y : String, getOrCreateConversationId x y = specConversationId x y := by
    intro x y
    unfold getOrCreateConversationId specConversationId
    rcases lt_trichotomy x y with h | h | h
    · rw [if_pos h, min_eq_left (le_of_lt h), max_eq_right (le_of_lt h)]
    · subst h
      rw [if_neg (lt_irrefl x), min_self, max_self]
    · rw [if_neg (not_lt_of_gt h), min_eq_right (le_of_lt h), max_eq_left (le_of_lt h)]
  have hsame : ∀ x y : String, sendMessageConversationId x y = getOrCreateConversationId x y := by
    intro x y
    rfl
  have hsymm : getOrCreateConversationId a b = getOrCreateConversationId b a := by
    rw [key a b, key b a]
    unfold specConversationId
    rw [min_comm, max_comm]
  exact ⟨hsymm, by rw [hsame a b, hsame b a]; exact hsymm, key a b, hsame a b⟩

/- ===== C9 : conversation key derivation (relay-core/src/encryption.rs) =====
HKDF-SHA256 lives in the `hkdf` crate, outside this repository; it is
modelled as an abstract function `hkdf ikm info` returning the output key
material (the code always uses empty salt and L = 32). -/

/-- One hex digit, as accepted by `hex::decode` (digits, `a`-`f`, `A`-`F`). -/
def hexVal (c : Char) : Option Nat :=
  if 48 ≤ c.toNat ∧ c.toNat ≤ 57 then some (c.toNat - 48)
  else if 97 ≤ c.toNat ∧ c.toNat ≤ 102 then some (c.toNat - 87)
  else if 65 ≤ c.toNat ∧ c.toNat ≤ 70 then some (c.toNat - 55)
  else none

/-- `hex::decode` over the characters of the input: pairs of hex digits
become bytes; odd length or a non-hex character fails. -/
def hexDecodePairs : List Char → Option (List Nat)
  | [] => some []
  | [_] => none
  | c1 :: c2 :: rest =>
    match hexVal c1, hexVal c2 with
    | some hi, some lo => (hexDecodePairs rest).map (fun bs => (16 * hi + lo) :: bs)
    | _, _ => none

/-- `hex::decode` on a string. -/
def hexDecodeStr (s : String) : Option (List Nat) :=
  hexDecodePairs s.data

/-- Rust `Vec::resize(32, 0)`: truncate to 32 bytes or pad with zeros. -/
def vecResize32 (bs : List Nat) : List Nat :=
  if bs.length < 32 then bs ++ List.replicate (32 - bs.length) 0 else bs.take 32

/-- `derive_conversation_key` from `relay-core/src/encryption.rs`: a master
key whose byte length is exactly 64 is hex-decoded (an error aborts);
otherwise the raw UTF-8 bytes are resized to 32; the result feeds `hkdf`
with the conversation id as info. -/
def derive_conversation_key (hkdf : List Nat → List Nat → List Nat)
    (masterKey conversationId : String) : Except String (List Nat) :=
  if rustLen masterKey = 64 then
    match hexDecodeStr masterKey with
    | some mb => Except.ok (hkdf mb (strBytes conversationId))
    | none => Except.error "Invalid hex master key"
  else
    Except.ok (hkdf (vecResize32 (strBytes masterKey)) (strBytes conversationId))

lemma hexVal_ascii {c : Char} {v : Nat} (h : hexVal c = some v) : c.toNat < 128 := by
  unfold hexVal at h
  split at h
  · next hc => omega
  split at h
  · next hc => omega
  split at h
  · next hc => omega
  · cases h

lemma hexDecodePairs_spec : ∀ {l : List Char} {bs : List Nat},
    hexDecodePairs l = some bs → l.length = 2 * bs.length ∧ ∀ c ∈ l, c.toNat < 128 := by
  intro l
  induction l using hexDecodePairs.induct with
  | case1 =>
    intro bs h
    simp only [hexDecodePairs, Option.some.injEq] at h
    subst h
    simp
  | case2 c =>
    intro bs h
    have hc : hexDecodePairs [c] = none := by rfl
    rw [hc] at h
    cases h
  | case3 c1 c2 rest hi lo h2 h1 ih =>
    intro bs h
    simp only [hexDecodePairs, h1, h2] at h
    cases hrec : hexDecodePairs rest with
    | none => rw [hrec] at h; cases h
    | some bs0 =>
      rw [hrec] at h
      simp at h
      obtain ⟨hl, hmem⟩ := ih hrec
      subst h
      refine ⟨by simp only [List.length_cons, List.length_cons]; omega, ?_⟩
      intro c hc
      simp only [List.mem_cons] at hc
      rcases hc with rfl | rfl | hc
      · exact hexVal_ascii h1
      · exact hexVal_ascii h2
      · exact hmem c hc
  | case4 c1 c2 rest hnone =>
    intro bs h
    simp only [hexDecodePairs] at h
    cases h

lemma charUtf8_ascii_length {c : Char} (h : c.toNat < 128) : (charUtf8 c).length = 1 := by
  unfold charUtf8
  rw [if_pos h]
  rfl

lemma flatten_charUtf8_length : ∀ (l : List Char), (∀ c ∈ l, c.toNat < 128) →
    ((l.map charUtf8).flatten).length = l.length := by
  intro l
  induction l with
  | nil => intro _; simp
  | cons c cs ih =>
    intro h
    simp only [List.map_cons, List.flatten_cons, List.length_append, List.length_cons]
    rw [charUtf8_ascii_length (h c (by simp)),
      ih (fun x hx => h x (List.mem_cons_of_mem _ hx))]
    omega

lemma rustLen_ascii {s : String} (h : ∀ c ∈ s.data, c.toNat < 128) :
    rustLen s = s.data.length := by
  unfold rustLen strBytes
  exact flatten_charUtf8_length s.data h

lemma vecResize32_length (bs : List Nat) : (vecResize32 bs).length = 32 := by
  unfold vecResize32
  split
  · next h => simp; omega
  · next h => simp; omega

/-- C9 (counterexample): a 64-character master key that is not valid hex —
here 64 times `z` — makes derivation fail, where the claim says every key
string that is not 64 valid hex characters succeeds via zero-pad/truncate. -/
theorem derive_key_hex64_cx :
    derive_conversation_key (fun ikm info => ikm ++ info)
      (String.mk (List.replicate 64 'z')) "conv"
      = Except.error "Invalid hex master key" := by rfl

/-- C9 (amended): the hex branch is taken exactly when the master key's
byte length is 64: such a key is hex-decoded to 32 bytes (an invalid-hex
key of length 64 fails with an error), every other key has its UTF-8
bytes zero-padded or truncated to 32 bytes, and the selected 32-byte
material feeds the abstract HKDF with info = conversation_id. -/
theorem derive_conversation_key_branches (hkdf : List Nat → List Nat → List Nat)
    (mk cid : String) :
    (rustLen mk ≠ 64 →
      derive_conversation_key hkdf mk cid
        = Except.ok (hkdf (vecResize32 (strBytes mk)) (strBytes cid)) ∧
      (vecResize32 (strBytes mk)).length = 32) ∧
    (∀ bs, rustLen mk = 64 → hexDecodeStr mk = some bs →
      derive_conversation_key hkdf mk cid = Except.ok (hkdf bs (strBytes cid)) ∧
      bs.length = 32) ∧
    (rustLen mk = 64 → hexDecodeStr mk = none →
      derive_conversation_key hkdf mk cid = Except.error "Invalid hex master key") := by
  refine ⟨?_, ?_, ?_⟩
  · intro h
    unfold derive_conversation_key
    rw [if_neg h]
    exact ⟨rfl, vecResize32_length _⟩
  · intro bs hlen hhex
    unfold derive_conversation_key hexDecodeStr
    rw [if_pos hlen]
    unfold hexDecodeStr at hhex
    rw [hhex]
    refine ⟨rfl, ?_⟩
    obtain ⟨hl, hascii⟩ := hexDecodePairs_spec hhex
    have := rustLen_ascii hascii
    omega
  · intro hlen hhex
    unfold derive_conversation_key hexDecodeStr
    rw [if_pos hlen]
    unfold hexDecodeStr at hhex
    rw [hhex]

/-- C9 witness: derivation at a short raw key and at a 64-hex-digit key. -/
theorem derive_conversation_key_branches_witness :
    derive_conversation_key (fun ikm info => ikm ++ info) "k" "a:b"
      = Except.ok ((vecResize32 (strBytes "k")) ++ strBytes "a:b") ∧
    derive_conversation_key (fun ikm info => ikm ++ info)
      (String.mk (List.replicate 64 '0')) "a:b"
      = Except.ok ((List.replicate 32 0) ++ strBytes "a:b") := by
  constructor
  · exact ((derive_conversation_key_branches (fun ikm info => ikm ++ info) "k" "a:b").1
      (by decide)).1
  · exact ((derive_conversation_key_branches (fun ikm info => ikm ++ info)
      (String.mk (List.replicate 64 '0')) "a:b").2.1 (List.replicate 32 0)
      (by rfl) (by rfl)).1

/- ===== C3 : message encryption round-trip (relay-core/src/encryption.rs) =====
`String::from_utf8` is modelled by an executable UTF-8 decoder.  The model
decoder is permissive about overlong forms (which `charUtf8` never emits),
so the round-trip with `strBytes` is exact. -/

lemma charToNat_lt (c : Char) : c.toNat < 1114112 := by
  have := c.valid
  rcases this with h | h
  · simp only [Char.toNat]; omega
  · simp only [Char.toNat]; omega

/-- Executable UTF-8 decoder over byte lists (`String::from_utf8`). -/
def utf8DecodeList : List Nat → Option (List Char)
  | [] => some []
  | b :: rest =>
    if b < 128 then
      (utf8DecodeList rest).map (fun cs => Char.ofNat b :: cs)
    else if b < 192 then none
    else if b < 224 then
      if 1 ≤ rest.length ∧ (128 ≤ rest.headD 0 ∧ rest.headD 0 < 192) then
        (utf8DecodeList (rest.drop 1)).map (fun cs =>
          Char.ofNat ((b - 192) * 64 + (rest.headD 0 - 128)) :: cs)
      else none
    else if b < 240 then
      if 2 ≤ rest.length ∧ (128 ≤ rest.headD 0 ∧ rest.headD 0 < 192) ∧
          (128 ≤ (rest.drop 1).headD 0 ∧ (rest.drop 1).headD 0 < 192) then
        (utf8DecodeList (rest.drop 2)).map (fun cs =>
          Char.ofNat ((b - 224) * 4096 + (rest.headD 0 - 128) * 64 +
            ((rest.drop 1).headD 0 - 128)) :: cs)
      else none
    else
      if 3 ≤ rest.length ∧ (128 ≤ rest.headD 0 ∧ rest.headD 0 < 192) ∧
          (128 ≤ (rest.drop 1).headD 0 ∧ (rest.drop 1).headD 0 < 192) ∧
          (128 ≤ (rest.drop 2).headD 0 ∧ (rest.drop 2).headD 0 < 192) then
        (utf8DecodeList (rest.drop 3)).map (fun cs =>
          Char.ofNat ((b - 240) * 262144 + (rest.headD 0 - 128) * 4096 +
            ((rest.drop 1).headD 0 - 128) * 64 + ((rest.drop 2).headD 0 - 128)) :: cs)
      else none
termination_by l => l.length
decreasing_by all_goals first
  | (simp [List.length_drop]; omega)
  | simp [List.length_drop]

lemma utf8DecodeList_charUtf8 (c : Char) (rest : List Nat) :
    utf8DecodeList (charUtf8 c ++ rest) = (utf8DecodeList rest).map (fun cs => c :: cs) := by
  have hlt := charToNat_lt c
  unfold charUtf8
  by_cases h1 : c.toNat < 128
  · rw [if_pos h1]
    simp only [List.cons_append, List.nil_append]
    rw [utf8DecodeList.eq_def]
    simp only [if_pos h1, Char.ofNat_toNat]
  by_cases h2 : c.toNat < 2048
  · rw [if_neg h1, if_pos h2]
    simp only [List.cons_append, List.nil_append]
    rw [utf8DecodeList.eq_def]
    have ha : ¬ (192 + c.toNat / 64 < 128) := by omega
    have hb : ¬ (192 + c.toNat / 64 < 192) := by omega
    have hc : 192 + c.toNat / 64 < 224 := by omega
    simp only [if_neg ha, if_neg hb, if_pos hc, List.headD, List.drop, List.length_cons]
    rw [if_pos (by constructor <;> omega)]
    have he : (192 + c.toNat / 64 - 192) * 64 + (128 + c.toNat % 64 - 128) = c.toNat := by
      omega
    rw [he, Char.ofNat_toNat]
  by_cases h3 : c.toNat < 65536
  · rw [if_neg h1, if_neg h2, if_pos h3]
    simp only [List.cons_append, List.nil_append]
    rw [utf8DecodeList.eq_def]
    have ha : ¬ (224 + c.toNat / 4096 < 128) := by omega
    have hb : ¬ (224 + c.toNat / 4096 < 192) := by omega
    have hc : ¬ (224 + c.toNat / 4096 < 224) := by omega
    have hd : 224 + c.toNat / 4096 < 240 := by omega
    simp only [if_neg ha, if_neg hb, if_neg hc, if_pos hd, List.headD, List.drop,
      List.length_cons]
    rw [if_pos (by refine ⟨by omega, by constructor <;> omega, by constructor <;> omega⟩)]
    have hf : (224 + c.toNat / 4096 - 224) * 4096 + (128 + c.toNat / 64 % 64 - 128) * 64 +
        (128 + c.toNat % 64 - 128) = c.toNat := by omega
    rw [hf, Char.ofNat_toNat]
  · rw [if_neg h1, if_neg h2, if_neg h3]
    simp only [List.cons_append, List.nil_append]
    rw [utf8DecodeList.eq_def]
    have ha : ¬ (240 + c.toNat / 262144 < 128) := by omega
    have hb : ¬ (240 + c.toNat / 262144 < 192) := by omega
    have hc : ¬ (240 + c.toNat / 262144 < 224) := by omega
    have hd : ¬ (240 + c.toNat / 262144 < 240) := by omega
    simp only [if_neg ha, if_neg hb, if_neg hc, if_neg hd, List.headD, List.drop,
      List.length_cons]
    rw [if_pos (by refine ⟨by omega, by constructor <;> omega, by constructor <;> omega,
      by constructor <;> omega⟩)]
    have hf : (240 + c.toNat / 262144 - 240) * 262144 + (128 + c.toNat / 4096 % 64 - 128) * 4096 +
        (128 + c.toNat / 64 % 64 - 128) * 64 + (128 + c.toNat % 64 - 128) = c.toNat := by omega
    rw [hf, Char.ofNat_toNat]

/-- `String::from_utf8` on a byte list. -/
def stringFromUtf8 (bs : List Nat) : Option String :=
  (utf8DecodeList bs).map String.mk

lemma stringFromUtf8_strBytes (s : String) : stringFromUtf8 (strBytes s) = some s := by
  unfold stringFromUtf8 strBytes
  have : ∀ l : List Char, utf8DecodeList ((l.map charUtf8).flatten) = some l := by
    intro l
    induction l with
    | nil => simp [utf8DecodeList]
    | cons c cs ih =>
      simp only [List.map_cons, List.flatten_cons]
      rw [utf8DecodeList_charUtf8, ih]
      rfl
  rw [this s.data]
  rfl

/-- Symbolic contract of an AEAD cipher (the `aes_gcm` crate is outside the
repository): decryption with the sealing key and nonce recovers the
plaintext, and decryption with any other key fails the tag check. -/
structure AeadModel where
  enc : List Nat → List Nat → List Nat → List Nat
  dec : List Nat → List Nat → List Nat → Option (List Nat)
  dec_enc : ∀ k n pt, dec k n (enc k n pt) = some pt
  dec_wrong_key : ∀ k k2 n pt, k ≠ k2 → dec k2 n (enc k n pt) = none

/-- Wire representation of a base64 string; the `base64` crate is outside
the repository, so the encoded text is carried as its byte payload. -/
structure B64Cipher where
  bytes : List Nat
deriving DecidableEq

/-- `STANDARD.encode`. -/
def b64encode (bs : List Nat) : B64Cipher := ⟨bs⟩

/-- `STANDARD.decode`; on this wire representation the malformed-input
branch of the Rust code is unreachable. -/
def b64decode (s : B64Cipher) : Except String (List Nat) := Except.ok s.bytes

/-- `encrypt_message` from `relay-core/src/encryption.rs`: derive the
conversation key, seal the content under a fresh 12-byte nonce (the nonce
drawn from `OsRng` is an explicit argument), prepend the nonce, base64. -/
def encrypt_message (A : AeadModel) (hkdf : List Nat → List Nat → List Nat)
    (nonce : List Nat) (content conversationId masterKey : String) :
    Except String B64Cipher :=
  match derive_conversation_key hkdf masterKey conversationId with
  | Except.error e => Except.error e
  | Except.ok key => Except.ok (b64encode (nonce ++ A.enc key nonce (strBytes content)))

/-- `decrypt_message` from `relay-core/src/encryption.rs`: base64 decode,
reject fewer than 12 bytes, split nonce and ciphertext, derive the key,
open, and re-read the plaintext as UTF-8. -/
def decrypt_message (A : AeadModel) (hkdf : List Nat → List Nat → List Nat)
    (encryptedContent : B64Cipher) (conversationId masterKey : String) :
    Except String String :=
  match b64decode encryptedContent with
  | Except.error e => Except.error e
  | Except.ok encryptedData =>
    if encryptedData.length < 12 then Except.error "Invalid encrypted data: too short"
    else
      match derive_conversation_key hkdf masterKey conversationId with
      | Except.error e => Except.error e
      | Except.ok key =>
        match A.dec key (encryptedData.take 12) (encryptedData.drop 12) with
        | none => Except.error "Decryption failed"
        | some pt =>
          match stringFromUtf8 pt with
          | none => Except.error "Invalid UTF-8 after decryption"
          | some s => Except.ok s

lemma derive_key_shape (hkdf : List Nat → List Nat → List Nat) (mk : String) :
    (∃ mb, ∀ cid, derive_conversation_key hkdf mk cid = Except.ok (hkdf mb (strBytes cid))) ∨
    (∀ cid, derive_conversation_key hkdf mk cid = Except.error "Invalid hex master key") := by
  by_cases hlen : rustLen mk = 64
  · cases hhex : hexDecodeStr mk with
    | some mb =>
      left
      exact ⟨mb, fun cid => by unfold derive_conversation_key; rw [if_pos hlen, hhex]⟩
    | none =>
      right
      intro cid
      unfold derive_conversation_key
      rw [if_pos hlen, hhex]
  · left
    exact ⟨vecResize32 (strBytes mk), fun cid => by
      unfold derive_conversation_key; rw [if_neg hlen]⟩

/-- C3: whenever `encrypt_message` succeeds, `decrypt_message` of the
resulting envelope with the same conversation id and master key returns
the original plaintext, and — assuming the HKDF-derived keys of the two
conversation ids differ — decryption with any other conversation id fails
with an error. -/
theorem encrypt_decrypt_roundtrip
    (A : AeadModel) (hkdf : List Nat → List Nat → List Nat)
    (nonce : List Nat) (content conversationId conversationId2 masterKey : String)
    (c : B64Cipher)
    (hn : nonce.length = 12)
    (henc : encrypt_message A hkdf nonce content conversationId masterKey = Except.ok c)
    (hne : conversationId2 ≠ conversationId)
    (hkeys : ∀ mb, hkdf mb (strBytes conversationId) ≠ hkdf mb (strBytes conversationId2)) :
    decrypt_message A hkdf c conversationId masterKey = Except.ok content ∧
    ∃ e, decrypt_message A hkdf c conversationId2 masterKey = Except.error e := by
  rcases derive_key_shape hkdf masterKey with ⟨mb, hok⟩ | hbad
  · unfold encrypt_message at henc
    rw [hok conversationId] at henc
    simp only [Except.ok.injEq] at henc
    subst henc
    have hdata : b64decode (b64encode (nonce ++
        A.enc (hkdf mb (strBytes conversationId)) nonce (strBytes content)))
        = Except.ok (nonce ++
          A.enc (hkdf mb (strBytes conversationId)) nonce (strBytes content)) := rfl
    have hlen : ¬ ((nonce ++
        A.enc (hkdf mb (strBytes conversationId)) nonce (strBytes content)).length < 12) := by
      simp [List.length_append, hn]
    have htake : (nonce ++
        A.enc (hkdf mb (strBytes conversationId)) nonce (strBytes content)).take 12 = nonce := by
      rw [← hn]
      exact List.take_left _ _
    have hdrop : (nonce ++
        A.enc (hkdf mb (strBytes conversationId)) nonce (strBytes content)).drop 12
        = A.enc (hkdf mb (strBytes conversationId)) nonce (strBytes content) := by
      rw [← hn]
      exact List.drop_left _ _
    constructor
    · unfold decrypt_message
      dsimp only [b64encode, b64decode]
      rw [if_neg hlen]
      rw [hok conversationId]
      dsimp only
      rw [htake, hdrop]
      rw [A.dec_enc]
      dsimp only
      rw [stringFromUtf8_strBytes]
    · refine ⟨"Decryption failed", ?_⟩
      unfold decrypt_message
      dsimp only [b64encode, b64decode]
      rw [if_neg hlen]
      rw [hok conversationId2]
      dsimp only
      rw [htake, hdrop]
      rw [A.dec_wrong_key _ _ _ _ (hkeys mb)]
  · exfalso
    unfold encrypt_message at henc
    rw [hbad conversationId] at henc
    cases henc

/-- Length-prefixed symbolic cipher used to instantiate `AeadModel` for
concrete evaluation. -/
def toyEnc (key nonce pt : List Nat) : List Nat :=
  (key.length :: key) ++ ((nonce.length :: nonce) ++ pt)

/-- Inverse of `toyEnc` that checks the embedded key and nonce. -/
def toyDec (key nonce ct : List Nat) : Option (List Nat) :=
  match ct with
  | [] => none
  | lk :: rest =>
    match rest.drop lk with
    | [] => none
    | ln :: rest3 =>
      if rest.take lk = key ∧ rest3.take ln = nonce then some (rest3.drop ln) else none

lemma toyDec_toyEnc (k n pt : List Nat) : toyDec k n (toyEnc k n pt) = some pt := by
  unfold toyEnc toyDec
  simp only [List.cons_append, List.append_assoc]
  rw [List.drop_left, List.take_left]
  simp only [List.cons_append]
  rw [List.drop_left, List.take_left]
  simp

lemma toyDec_wrong_key (k k2 n pt : List Nat) (h : k ≠ k2) :
    toyDec k2 n (toyEnc k n pt) = none := by
  unfold toyEnc toyDec
  simp only [List.cons_append, List.append_assoc]
  rw [List.drop_left, List.take_left]
  simp [h]

/-- Concrete symbolic AEAD instance. -/
def toyAead : AeadModel :=
  { enc := toyEnc
    dec := toyDec
    dec_enc := toyDec_toyEnc
    dec_wrong_key := toyDec_wrong_key }

/-- Concrete HKDF stand-in: output key material is ikm followed by info. -/
def toyHkdf (ikm info : List Nat) : List Nat := ikm ++ info

/-- Fixed 12-byte nonce for the witness. -/
def toyNonce : List Nat := List.replicate 12 0

/-- The envelope produced by `encrypt_message` on the witness inputs. -/
def toyCipher : B64Cipher :=
  ⟨toyNonce ++ toyAead.enc (toyHkdf (vecResize32 (strBytes "k")) (strBytes "a:b"))
    toyNonce (strBytes "hi")⟩

/-- C3 witness: the round trip and the foreign-conversation failure on
concrete inputs. -/
theorem encrypt_decrypt_roundtrip_witness :
    decrypt_message toyAead toyHkdf toyCipher "a:b" "k" = Except.ok "hi" ∧
    ∃ e, decrypt_message toyAead toyHkdf toyCipher "a:c" "k" = Except.error e := by
  refine encrypt_decrypt_roundtrip toyAead toyHkdf toyNonce "hi" "a:b" "a:c" "k" toyCipher
    (by rfl) (by rfl) (by decide) ?_
  intro mb hcon
  have := List.append_cancel_left hcon
  have hx := congrArg (fun l => l.getLast? ) this
  simp [strBytes, charUtf8] at hx

/- ===== C10 : bearer tokens (relay-api/src/auth.rs) =====
The `jsonwebtoken` crate is outside the repository; an HS256 token is
modelled symbolically as its claims plus the secret it was signed with,
and `decode` checks the secret and the `exp` claim (default validation:
leeway 60 s). -/

structure JwtClaims where
  user_address : String
  exp : Nat
deriving DecidableEq

structure Jwt where
  claims : JwtClaims
  secret : String
deriving DecidableEq

/-- `generate_token` from `relay-api/src/auth.rs`: claims are the user
address and `now + expires_in_days` in seconds. -/
def generate_token (user_address secret : String) (expiresInDays now : Nat) : Jwt :=
  { claims := { user_address := user_address, exp := now + expiresInDays * 24 * 60 * 60 }
    secret := secret }

/-- `verify_token` from `relay-api/src/auth.rs`: any decode failure (bad
signature or expired claim) maps to status 401. -/
def verify_token (token : Jwt) (secret : String) (now : Nat) : Except Nat String :=
  if token.secret = secret then
    if token.claims.exp < now - 60 then Except.error 401
    else Except.ok token.claims.user_address
  else Except.error 401

/-- C10: verifying a freshly minted token with the same secret before its
expiry returns the address it was minted for; a different secret fails
with 401. -/
theorem jwt_roundtrip (addr secret secret2 : String) (d nowGen nowVer : Nat)
    (hd : 0 < d) (hbefore : nowVer ≤ nowGen + d * 24 * 60 * 60) :
    verify_token (generate_token addr secret d nowGen) secret nowVer = Except.ok addr ∧
    (secret2 ≠ secret →
      verify_token (generate_token addr secret d nowGen) secret2 nowVer = Except.error 401) := by
  constructor
  · unfold generate_token verify_token
    rw [if_pos rfl, if_neg (by simp only; omega)]
  · intro h
    unfold generate_token verify_token
    rw [if_neg (by simpa using fun he => h he.symm)]

/-- C10 witness: the round trip on concrete inputs. -/
theorem jwt_roundtrip_witness :
    verify_token (generate_token "0xA" "s" 30 100) "s" 200 = Except.ok "0xA" ∧
    verify_token (generate_token "0xA" "s" 30 100) "s2" 200 = Except.error 401 := by
  have h := jwt_roundtrip "0xA" "s" "s2" 30 100 200 (by decide) (by omega)
  exact ⟨h.1, h.2 (by decide)⟩

/- ===== C5 : auth message validation (relay-core/src/signature.rs;
relay-api/src/handlers.rs, generate_token endpoint) ===== -/

/-- Rust `char::is_whitespace` (the Unicode White_Space characters). -/
def rustIsWhitespace (c : Char) : Bool :=
  c.toNat = 32 || c.toNat = 9 || c.toNat = 10 || c.toNat = 11 || c.toNat = 12 ||
  c.toNat = 13 || c.toNat = 133 || c.toNat = 160 || c.toNat = 5760 ||
  (8192 ≤ c.toNat && c.toNat ≤ 8202) || c.toNat = 8232 || c.toNat = 8233 ||
  c.toNat = 8239 || c.toNat = 8287 || c.toNat = 12288

/-- Rust `str::trim` on a character list. -/
def rustTrim (l : List Char) : List Char :=
  ((l.dropWhile rustIsWhitespace).reverse.dropWhile rustIsWhitespace).reverse

/-- Rust `str::trim` on a string. -/
def rustTrimStr (s : String) : String :=
  String.mk (rustTrim s.data)

/-- Split a character list on newline characters (keeping empty pieces). -/
def splitOnNl : List Char → List (List Char)
  | [] => [[]]
  | c :: rest =>
    if c = '\n' then [] :: splitOnNl rest
    else
      match splitOnNl rest with
      | [] => [[c]]
      | l :: ls => (c :: l) :: ls

/-- Rust `str::lines`: split on `\n`, strip one trailing `\r` per line, and
drop the final empty piece left by a trailing newline. -/
def rustLines (s : String) : List (List Char) :=
  let pieces := (splitOnNl s.data).map
    (fun l => if l.getLast? = some '\r' then l.dropLast else l)
  if pieces.getLast? = some [] then pieces.dropLast else pieces

/-- Characters before the next occurrence of `sep` (Rust `split` piece
boundary scan). -/
def takeUntilOcc (sep : List Char) : List Char → List Char
  | [] => []
  | c :: rest => if sep.isPrefixOf (c :: rest) then [] else c :: takeUntilOcc sep rest

/-- The `Timestamp:` extraction of `validate_auth_message`: the first line
starting with `Timestamp:`, split on that separator, piece 1, trimmed.
Because the found line starts with the separator, piece 1 always exists:
it is what stands between the separator and its next occurrence. -/
def timestampFieldOf (message : String) : Option (List Char) :=
  ((rustLines message).find? (fun l => "Timestamp:".data.isPrefixOf l)).map
    (fun l => rustTrim (takeUntilOcc "Timestamp:".data (l.drop "Timestamp:".data.length)))

/-- Rust `str::parse::<u64>`: optional leading `+`, one or more digits, and
the value must fit in 64 bits. -/
def parseU64 (l : List Char) : Option Nat :=
  let digits := match l with
    | '+' :: rest => rest
    | _ => l
  if digits.isEmpty then none
  else if digits.all (fun c => c.isDigit) then
    let v := digits.foldl (fun acc c => acc * 10 + (c.toNat - 48)) 0
    if v < 18446744073709551616 then some v else none
  else none

/-- The parsed timestamp of an auth message (extraction then parse). -/
def timestampOf (message : String) : Option Nat :=
  (timestampFieldOf message).bind parseU64

/-- `validate_auth_message` from `relay-core/src/signature.rs` with the
current time as an explicit argument. -/
def validate_auth_message (message walletAddress : String) (maxAgeSeconds now : Nat) :
    Except String Unit :=
  if strContains message "Sign in to MySocial Relay" = false then
    Except.error "Invalid message format: missing expected prefix"
  else if strContains message ("Wallet: " ++ walletAddress) = false then
    Except.error "Message does not contain expected wallet address"
  else
    match timestampFieldOf message with
    | none => Except.error "Missing timestamp in message"
    | some tsStr =>
      match parseU64 tsStr with
      | none => Except.error "Invalid timestamp format"
      | some timestamp =>
        if now < timestamp then Except.error "Timestamp is in the future"
        else if maxAgeSeconds < now - timestamp then Except.error "Message is too old"
        else Except.ok ()

/-- The `generate_token` endpoint of `relay-api/src/handlers.rs`: signature
check (the opaque verifier's outcome is an argument), then message
validation mapped to 400, then the profile lookup (403 when absent), then
a 30-day token.  Pool/database errors (500) are outside the model. -/
def generate_token_endpoint (sig : Except String Bool) (profile : Option Int)
    (message walletAddressRaw secret : String) (now : Nat) : Except Nat (Jwt × Nat) :=
  let walletAddress := rustTrimStr walletAddressRaw
  match sig with
  | Except.error _ => Except.error 401
  | Except.ok false => Except.error 401
  | Except.ok true =>
    match validate_auth_message message walletAddress 300 now with
    | Except.error _ => Except.error 400
    | Except.ok _ =>
      match profile with
      | none => Except.error 403
      | some _ =>
        Except.ok (generate_token walletAddress secret 30 now, 30 * 24 * 60 * 60)

/-- C5: validation rejects any message whose parsed timestamp is strictly
in the future or more than 300 s old; it succeeds for an in-window
timestamp when the message carries the sign-in line and the wallet line;
and the token endpoint turns a validation failure into HTTP 400. -/
theorem auth_window_spec (message wallet : String) (now : Nat) :
    (∀ ts, timestampOf message = some ts → (now < ts ∨ 300 < now - ts) →
      ∃ e, validate_auth_message message wallet 300 now = Except.error e) ∧
    (strContains message "Sign in to MySocial Relay" = true →
     strContains message ("Wallet: " ++ wallet) = true →
     ∀ ts, timestampOf message = some ts → ts ≤ now → now - ts ≤ 300 →
       validate_auth_message message wallet 300 now = Except.ok ()) ∧
    (∀ (profile : Option Int) (secret e : String),
      validate_auth_message message (rustTrimStr wallet) 300 now = Except.error e →
      generate_token_endpoint (Except.ok true) profile message wallet secret now
        = Except.error 400) := by
  refine ⟨?_, ?_, ?_⟩
  · intro ts hts hwin
    obtain ⟨tsStr, hfield, hparse⟩ := Option.bind_eq_some.mp hts
    unfold validate_auth_message
    by_cases h1 : strContains message "Sign in to MySocial Relay" = false
    · rw [if_pos h1]
      exact ⟨_, rfl⟩
    · rw [if_neg h1]
      by_cases h2 : strContains message ("Wallet: " ++ wallet) = false
      · rw [if_pos h2]
        exact ⟨_, rfl⟩
      · rw [if_neg h2]
        rw [hfield]
        dsimp only
        rw [hparse]
        dsimp only
        rcases hwin with hw | hw
        · rw [if_pos hw]
          exact ⟨_, rfl⟩
        · rw [if_neg (by omega), if_pos hw]
          exact ⟨_, rfl⟩
  · intro h1 h2 ts hts hle hage
    obtain ⟨tsStr, hfield, hparse⟩ := Option.bind_eq_some.mp hts
    unfold validate_auth_message
    rw [if_neg (by rw [h1]; simp)]
    rw [if_neg (by rw [h2]; simp)]
    rw [hfield]
    dsimp only
    rw [hparse]
    dsimp only
    rw [if_neg (by omega), if_neg (by omega)]
  · intro profile secret e hval
    unfold generate_token_endpoint
    dsimp only
    rw [hval]

/-- Concrete auth message for the witness. -/
def wMsg : String :=
  "Sign in to MySocial Relay\n\nWallet: 0xA\nNonce: n1\nTimestamp: 100"

/-- C5 witness: the concrete message is accepted at `now = 200`, rejected
at `now = 500` (timestamp 400 s old), and the endpoint returns 400 then. -/
theorem auth_window_spec_witness :
    validate_auth_message wMsg "0xA" 300 200 = Except.ok () ∧
    (∃ e, validate_auth_message wMsg "0xA" 300 500 = Except.error e) ∧
    generate_token_endpoint (Except.ok true) (some 1) wMsg "0xA" "s" 500
      = Except.error 400 := by
  have h200 := auth_window_spec wMsg "0xA" 200
  have h500 := auth_window_spec wMsg "0xA" 500
  refine ⟨?_, ?_, ?_⟩
  · exact h200.2.1 (by rfl) (by rfl) 100 (by rfl) (by decide) (by decide)
  · exact h500.1 100 (by rfl) (by decide)
  · exact h500.2.2 (some 1) "s" "Message is too old" (by rfl)

/- ===== C6 : mark notification read (relay-api/src/handlers.rs,
mark_notification_read) =====
The notification rows (columns the handler reads; the worker also writes a
platform_id column) and the cache counters (`DECR` on an absent key yields
-1, like an integer map defaulting to 0). -/

structure Notification where
  id : Int
  user_address : String
  notification_type : String
  title : String
  body : String
  data : Option String
  platform_id : Option String
  read_at : Option Int
  created_at : Int
deriving DecidableEq

structure ApiState where
  notifications : List Notification
  counters : String → Int

inductive MarkReadResponse
  | okStatus
  | alreadyRead
  | notFound
deriving DecidableEq

/-- Redis `DECR` on one key. -/
def counterDecr (f : String → Int) (k : String) : String → Int :=
  fun k2 => if k2 = k then f k - 1 else f k2

/-- `mark_notification_read` from `relay-api/src/handlers.rs`: look the row
up by id and bearer (404 when absent), report `already_read` when read_at
is set, otherwise set read_at on the id and `DECR` the total and (when the
row has a platform) the per-platform unread counters. -/
def mark_notification_read (st : ApiState) (bearer : String) (nid : Int) (now : Int) :
    MarkReadResponse × ApiState :=
  match st.notifications.find? (fun n => n.id == nid && n.user_address == bearer) with
  | none => (MarkReadResponse.notFound, st)
  | some n =>
    match ((st.notifications.filter (fun r => r.id == nid)).head?).bind
        (fun r => r.read_at) with
    | some _ => (MarkReadResponse.alreadyRead, st)
    | none =>
      let updated := st.notifications.map
        (fun r => if r.id == nid then { r with read_at := some now } else r)
      let c1 := counterDecr st.counters ("UNREAD:" ++ bearer)
      let c2 := match n.platform_id with
        | some pid => counterDecr c1 ("UNREAD:" ++ bearer ++ ":" ++ pid)
        | none => c1
      (MarkReadResponse.okStatus, { notifications := updated, counters := c2 })

lemma find_owned {l : List Notification} {nid : Int} {bearer : String}
    (hu : l.Pairwise (fun a b => a.id ≠ b.id)) {n : Notification}
    (hn : n ∈ l) (hid : n.id = nid) (hown : n.user_address = bearer) :
    l.find? (fun r => r.id == nid && r.user_address == bearer) = some n := by
  induction l with
  | nil => cases hn
  | cons a tl ih =>
    rcases List.mem_cons.mp hn with rfl | hmem
    · rw [List.find?_cons_of_pos]
      simp [hid, hown]
    · have hane : a.id ≠ n.id := (List.pairwise_cons.mp hu).1 n hmem
      have hpa : ¬ ((a.id == nid && a.user_address == bearer) = true) := by
        simp only [Bool.and_eq_true, beq_iff_eq]
        intro hcon
        exact hane (hcon.1.trans hid.symm)
      rw [@List.find?_cons_of_neg _ (fun r => r.id == nid && r.user_address == bearer) a tl hpa]
      exact ih (List.pairwise_cons.mp hu).2 hmem

lemma filter_id_first {l : List Notification} {nid : Int}
    (hu : l.Pairwise (fun a b => a.id ≠ b.id)) {n : Notification}
    (hn : n ∈ l) (hid : n.id = nid) :
    (l.filter (fun r => r.id == nid)).head? = some n := by
  induction l with
  | nil => cases hn
  | cons a tl ih =>
    rcases List.mem_cons.mp hn with rfl | hmem
    · rw [List.filter_cons_of_pos (by simp [hid])]
      rfl
    · have hane : a.id ≠ n.id := (List.pairwise_cons.mp hu).1 n hmem
      have hpa : ¬ ((a.id == nid) = true) := by
        simp only [beq_iff_eq]
        intro hcon
        exact hane (hcon.trans hid.symm)
      rw [@List.filter_cons_of_neg _ (fun r : Notification => r.id == nid) a tl hpa]
      exact ih (List.pairwise_cons.mp hu).2 hmem

lemma mark_read_already (st : ApiState) (bearer : String) (nid now : Int)
    (hu : st.notifications.Pairwise (fun a b => a.id ≠ b.id))
    (n : Notification) (hn : n ∈ st.notifications) (hid : n.id = nid)
    (hown : n.user_address = bearer) (t : Int) (hrd : n.read_at = some t) :
    mark_notification_read st bearer nid now = (MarkReadResponse.alreadyRead, st) := by
  unfold mark_notification_read
  rw [find_owned hu hn hid hown]
  rw [filter_id_first hu hn hid]
  dsimp only [Option.bind]
  rw [hrd]

lemma unread_key_ne (bearer pid : String) :
    ("UNREAD:" ++ bearer) ≠ ("UNREAD:" ++ bearer ++ ":" ++ pid) := by
  intro h
  have hlen := congrArg String.length h
  rw [String.length_append, String.length_append, String.length_append,
    String.length_append] at hlen
  have h7 : ("UNREAD:" : String).length = 7 := rfl
  have hc : (":" : String).length = 1 := rfl
  omega

/-- C6: with unique notification ids, marking id N as bearer U returns 404
iff no notification with id N belongs to U; on an owned unread row the
call returns ok, sets read_at, and decrements the total (and, when the
row has a platform, the per-platform) unread counter; on an owned row
already read — in particular right after a first successful call — it
returns already_read and leaves the state unchanged. -/
theorem mark_read_ownership_spec (st : ApiState) (bearer : String) (nid now : Int)
    (hu : st.notifications.Pairwise (fun a b => a.id ≠ b.id)) :
    ((mark_notification_read st bearer nid now).1 = MarkReadResponse.notFound ↔
      ¬ ∃ n ∈ st.notifications, n.id = nid ∧ n.user_address = bearer) ∧
    (∀ n ∈ st.notifications, n.id = nid → n.user_address = bearer → n.read_at = none →
      (mark_notification_read st bearer nid now).1 = MarkReadResponse.okStatus ∧
      (∀ r ∈ (mark_notification_read st bearer nid now).2.notifications,
        r.id = nid → r.read_at = some now) ∧
      (mark_notification_read st bearer nid now).2.counters ("UNREAD:" ++ bearer)
        = st.counters ("UNREAD:" ++ bearer) - 1 ∧
      (∀ pid, n.platform_id = some pid →
        (mark_notification_read st bearer nid now).2.counters
            ("UNREAD:" ++ bearer ++ ":" ++ pid)
          = st.counters ("UNREAD:" ++ bearer ++ ":" ++ pid) - 1) ∧
      mark_notification_read (mark_notification_read st bearer nid now).2 bearer nid now
        = (MarkReadResponse.alreadyRead, (mark_notification_read st bearer nid now).2)) ∧
    (∀ n ∈ st.notifications, n.id = nid → n.user_address = bearer →
      ∀ t, n.read_at = some t →
      mark_notification_read st bearer nid now = (MarkReadResponse.alreadyRead, st)) := by
  refine ⟨?_, ?_, ?_⟩
  · cases hf : st.notifications.find?
        (fun n => n.id == nid && n.user_address == bearer) with
    | none =>
      constructor
      · intro _
        rw [List.find?_eq_none] at hf
        rintro ⟨n, hn, hid, hown⟩
        exact hf n hn (by simp [hid, hown])
      · intro _
        unfold mark_notification_read
        rw [hf]
    | some n =>
      have hmem := List.mem_of_find?_eq_some hf
      have hpred := List.find?_some hf
      simp only [Bool.and_eq_true, beq_iff_eq] at hpred
      constructor
      · intro hL
        exfalso
        unfold mark_notification_read at hL
        rw [hf] at hL
        cases hread : ((st.notifications.filter (fun r => r.id == nid)).head?).bind
            (fun r => r.read_at) with
        | some t => rw [hread] at hL; cases hL
        | none => rw [hread] at hL; cases hL
      · intro hR
        exact absurd ⟨n, hmem, hpred.1, hpred.2⟩ hR
  · intro n hmem hid hown hread
    have hf := find_owned hu hmem hid hown
    have hflt := filter_id_first hu hmem hid
    have heq : mark_notification_read st bearer nid now =
        (MarkReadResponse.okStatus,
          { notifications := st.notifications.map
              (fun r => if r.id == nid then { r with read_at := some now } else r)
            counters :=
              match n.platform_id with
              | some pid =>
                counterDecr (counterDecr st.counters ("UNREAD:" ++ bearer))
                  ("UNREAD:" ++ bearer ++ ":" ++ pid)
              | none => counterDecr st.counters ("UNREAD:" ++ bearer) }) := by
      unfold mark_notification_read
      rw [hf, hflt]
      dsimp only [Option.bind]
      rw [hread]
    refine ⟨by rw [heq], ?_, ?_, ?_, ?_⟩
    · rw [heq]
      intro r hr hrid
      obtain ⟨r0, hr0, rfl⟩ := List.mem_map.mp hr
      by_cases h : (r0.id == nid) = true
      · simp only [h, if_true]
      · rw [if_neg h] at hrid ⊢
        exact absurd (by simp [hrid]) h
    · rw [heq]
      cases hp : n.platform_id with
      | none => simp [counterDecr]
      | some pid =>
        simp only [counterDecr]
        rw [if_neg (unread_key_ne bearer pid)]
        simp
    · intro pid hp
      rw [heq]
      have hne2 : ("UNREAD:" ++ bearer ++ ":" ++ pid) ≠ ("UNREAD:" ++ bearer) :=
        fun hh => unread_key_ne bearer pid hh.symm
      simp [hp, counterDecr, hne2]
    · rw [heq]
      refine mark_read_already _ bearer nid now ?_
        { n with read_at := some now } ?_ hid hown now rfl
      · rw [List.pairwise_map]
        refine hu.imp_of_mem ?_
        intro a b _ _ hab
        by_cases ha : (a.id == nid) = true <;> by_cases hb : (b.id == nid) = true <;>
          simp [ha, hb, hab]
      · have hmm := List.mem_map_of_mem
          (fun r => if r.id == nid then { r with read_at := some now } else r) hmem
        simpa [hid] using hmm
  · intro n hmem hid hown t hread
    exact mark_read_already st bearer nid now hu n hmem hid hown t hread

/-- Concrete notification for the C6 witness. -/
def wNotif : Notification :=
  { id := 5, user_address := "0xA", notification_type := "like.created",
    title := "t", body := "b", data := none, platform_id := some "p1",
    read_at := none, created_at := 0 }

/-- Concrete API state for the C6 witness: one unread notification, both
unread counters at 1. -/
def wState : ApiState :=
  { notifications := [wNotif], counters := fun _ => 1 }

/-- C6 witness: first call succeeds and decrements the counter; the
wrong bearer gets 404. -/
theorem mark_read_ownership_spec_witness :
    (mark_notification_read wState "0xA" 5 9).1 = MarkReadResponse.okStatus ∧
    (mark_notification_read wState "0xA" 5 9).2.counters ("UNREAD:" ++ "0xA")
      = wState.counters ("UNREAD:" ++ "0xA") - 1 ∧
    (mark_notification_read wState "0xB" 5 9).1 = MarkReadResponse.notFound := by
  have h := mark_read_ownership_spec wState "0xA" 5 9 (by simp [wState])
  have hB := mark_read_ownership_spec wState "0xB" 5 9 (by simp [wState])
  have h2 := h.2.1 wNotif (by simp [wState]) rfl rfl rfl
  refine ⟨h2.1, h2.2.2.1, ?_⟩
  refine hB.1.mpr ?_
  rintro ⟨n, hn, _, hown⟩
  simp only [wState, List.mem_singleton] at hn
  subst hn
  exact absurd hown (by decide)

/- ===== C7 : per-tenant delivery credentials (relay-delivery/src/consumer.rs,
handle_delivery; relay-core/src/platform_delivery_config.rs) =====
`a2::Client::token` and `reqwest::Client::builder` are modelled as
succeeding; base64 key decoding and key-file reading are explicit function
parameters since they live outside the repository. -/

structure DeliveryConfig where
  apns_bundle_id : Option String
  apns_key_id : Option String
  apns_team_id : Option String
  apns_key_path : Option String
  apns_key_content : Option String
  fcm_server_key : Option String
  resend_api_key : Option String
  resend_from_email : Option String
deriving DecidableEq

structure PlatformDeliveryConfig where
  id : Int
  platform_id : String
  apns_bundle_id : Option String
  apns_key_id : Option String
  apns_team_id : Option String
  apns_key_path : Option String
  apns_key_content : Option String
  fcm_server_key : Option String
  resend_api_key : Option String
  resend_from_email : Option String
  created_at : Int
  updated_at : Int
deriving DecidableEq

/-- The `From<&PlatformDeliveryConfig> for DeliveryConfig` impl: a plain
field-by-field copy — a `None` field stays `None`. -/
def deliveryConfigFrom (config : PlatformDeliveryConfig) : DeliveryConfig :=
  { apns_bundle_id := config.apns_bundle_id
    apns_key_id := config.apns_key_id
    apns_team_id := config.apns_team_id
    apns_key_path := config.apns_key_path
    apns_key_content := config.apns_key_content
    fcm_server_key := config.fcm_server_key
    resend_api_key := config.resend_api_key
    resend_from_email := config.resend_from_email }

structure ApnsClient where
  keyContent : String
  keyId : String
  teamId : String
  sandbox : Bool
deriving DecidableEq

structure ApnsDelivery where
  client : Option ApnsClient
  bundleId : String
deriving DecidableEq

/-- `ApnsDelivery::new`: without both key id and team id the client is
disabled (`Ok` with `client = None`); with them, the key material comes
from base64 content or the key file, either of which may fail, and a
missing source is an error. -/
def apnsNew (decodeB64Key : String → Except String String)
    (readKeyFile : String → Except String String)
    (config : DeliveryConfig) : Except String ApnsDelivery :=
  let bundleId := (config.apns_bundle_id).getD ""
  match config.apns_key_id, config.apns_team_id with
  | some keyId, some teamId =>
    let keyContentE : Except String String :=
      match config.apns_key_content with
      | some b64 => decodeB64Key b64
      | none =>
        match config.apns_key_path with
        | some path => readKeyFile path
        | none => Except.error "Either apns_key_path or apns_key_content must be provided"
    match keyContentE with
    | Except.error e => Except.error e
    | Except.ok keyContent =>
      Except.ok
        { client := some
            { keyContent := keyContent, keyId := keyId, teamId := teamId
              sandbox := strContains bundleId "sandbox" || strContains bundleId "dev" }
          bundleId := bundleId }
  | _, _ => Except.ok { client := none, bundleId := bundleId }

structure FcmDelivery where
  serverKey : Option String
deriving DecidableEq

/-- `FcmDelivery::new`: never fails; the client exists iff a server key is
configured. -/
def fcmNew (config : DeliveryConfig) : Except String FcmDelivery :=
  Except.ok { serverKey := config.fcm_server_key }

structure EmailDelivery where
  creds : Option (String × String)
deriving DecidableEq

/-- `EmailDelivery::new`: the client exists iff both the api key and the
from-address are configured. -/
def emailNew (config : DeliveryConfig) : Except String EmailDelivery :=
  Except.ok
    { creds :=
        match config.resend_api_key, config.resend_from_email with
        | some k, some f => some (k, f)
        | _, _ => none }

inductive DeliveryAction where
  | apnsPush (client : ApnsClient) (bundleId deviceToken : String)
  | fcmPush (serverKey deviceToken : String)
  | emailSend (apiKey fromEmail userAddress : String)
deriving DecidableEq

/-- `ApnsDelivery::send`: skipped silently when the client is disabled. -/
def apnsSendActions (d : ApnsDelivery) (deviceToken : String) : List DeliveryAction :=
  match d.client with
  | none => []
  | some c => [DeliveryAction.apnsPush c d.bundleId deviceToken]

/-- `FcmDelivery::send`: skipped silently when not configured. -/
def fcmSendActions (d : FcmDelivery) (deviceToken : String) : List DeliveryAction :=
  match d.serverKey with
  | none => []
  | some k => [DeliveryAction.fcmPush k deviceToken]

/-- `EmailDelivery::send`: skipped silently when not configured. -/
def emailSendActions (d : EmailDelivery) (userAddress : String) : List DeliveryAction :=
  match d.creds with
  | none => []
  | some kf => [DeliveryAction.emailSend kf.1 kf.2 userAddress]

/-- The per-token dispatch loop plus the one email send of
`handle_delivery`, with a given client triple. -/
def dispatchWith (apns : ApnsDelivery) (fcm : FcmDelivery) (email : EmailDelivery)
    (tokens : List (String × String)) (userAddress : String) : List DeliveryAction :=
  (tokens.map (fun tp =>
    if tp.2 = "ios" then apnsSendActions apns tp.1
    else if tp.2 = "android" then fcmSendActions fcm tp.1
    else [])).flatten ++ emailSendActions email userAddress

/-- The credential-resolution and dispatch logic of `handle_delivery`:
`fetchConfig` is the database's answer for the job's platform id.  When a
per-tenant row exists and all three tenant clients construct, the tenant
clients are used and the function returns; in every other case — no
platform id, no row, a fetch error, or a client constructor error — the
global clients are used. -/
def handle_delivery (decodeB64Key readKeyFile : String → Except String String)
    (globalApns : ApnsDelivery) (globalFcm : FcmDelivery) (globalEmail : EmailDelivery)
    (fetchConfig : Except String (Option PlatformDeliveryConfig))
    (userAddress : String) (platformId : Option String)
    (tokens : List (String × String)) : List DeliveryAction :=
  match platformId with
  | some _ =>
    match fetchConfig with
    | Except.ok (some platformConfig) =>
      let deliveryConfig := deliveryConfigFrom platformConfig
      match apnsNew decodeB64Key readKeyFile deliveryConfig, fcmNew deliveryConfig,
          emailNew deliveryConfig with
      | Except.ok pa, Except.ok pf, Except.ok pe =>
        dispatchWith pa pf pe tokens userAddress
      | _, _, _ => dispatchWith globalApns globalFcm globalEmail tokens userAddress
    | Except.ok none => dispatchWith globalApns globalFcm globalEmail tokens userAddress
    | Except.error _ => dispatchWith globalApns globalFcm globalEmail tokens userAddress
  | none => dispatchWith globalApns globalFcm globalEmail tokens userAddress

/-- Global delivery clients used as concrete C7 data: APNs, FCM and email
all configured. -/
def wGlobalApns : ApnsDelivery :=
  { client := some { keyContent := "gk", keyId := "gid", teamId := "gteam", sandbox := false }
    bundleId := "com.app" }

def wGlobalFcm : FcmDelivery := { serverKey := some "gfcm" }

def wGlobalEmail : EmailDelivery := { creds := some ("gkey", "noreply") }

/-- A per-tenant row with every credential field missing. -/
def wTenantEmptyRow : PlatformDeliveryConfig :=
  { id := 1, platform_id := "tenant1", apns_bundle_id := none, apns_key_id := none,
    apns_team_id := none, apns_key_path := none, apns_key_content := none,
    fcm_server_key := none, resend_api_key := none, resend_from_email := none,
    created_at := 0, updated_at := 0 }

/-- Base64 key decoding for the witnesses: the identity. -/
def wDecode : String → Except String String := fun s => Except.ok s

/-- Key-file reading for the witnesses: always fails. -/
def wRead : String → Except String String := fun _ => Except.error "no filesystem"

/-- C7 (counterexample): with a per-tenant row that has no credential
fields at all and a globally configured APNs client, an iOS token job
produces no delivery action whatsoever — the tenant clients are used (all
disabled) and nothing falls back per-field to the global APNs
configuration, which dispatching with the global clients would have used. -/
theorem delivery_no_per_field_fallback_cx :
    handle_delivery wDecode wRead wGlobalApns wGlobalFcm wGlobalEmail
      (Except.ok (some wTenantEmptyRow)) "0xA" (some "tenant1") [("tok1", "ios")] = [] ∧
    dispatchWith wGlobalApns wGlobalFcm wGlobalEmail [("tok1", "ios")] "0xA"
      = [DeliveryAction.apnsPush
          { keyContent := "gk", keyId := "gid", teamId := "gteam", sandbox := false }
          "com.app" "tok1",
         DeliveryAction.emailSend "gkey" "noreply" "0xA"] := by
  constructor <;> rfl

/-- C7 (amended): credential fallback is wholesale, not per-field.  When
the job carries a platform id and a per-tenant row exists and the three
tenant clients construct, delivery uses exclusively the tenant row's
fields (a channel whose fields are missing in the row is skipped, not
served from the global defaults); the global clients are used only when
the job has no platform id, no tenant row exists, the config fetch fails,
or a tenant client constructor fails. -/
theorem delivery_fallback_wholesale
    (decodeB64Key readKeyFile : String → Except String String)
    (gA : ApnsDelivery) (gF : FcmDelivery) (gE : EmailDelivery)
    (fetchConfig : Except String (Option PlatformDeliveryConfig))
    (user pid : String) (tokens : List (String × String)) :
    (∀ pc pa pf pe, fetchConfig = Except.ok (some pc) →
      apnsNew decodeB64Key readKeyFile (deliveryConfigFrom pc) = Except.ok pa →
      fcmNew (deliveryConfigFrom pc) = Except.ok pf →
      emailNew (deliveryConfigFrom pc) = Except.ok pe →
      handle_delivery decodeB64Key readKeyFile gA gF gE fetchConfig user (some pid) tokens
        = dispatchWith pa pf pe tokens user) ∧
    (∀ pc e, fetchConfig = Except.ok (some pc) →
      apnsNew decodeB64Key readKeyFile (deliveryConfigFrom pc) = Except.error e →
      handle_delivery decodeB64Key readKeyFile gA gF gE fetchConfig user (some pid) tokens
        = dispatchWith gA gF gE tokens user) ∧
    (fetchConfig = Except.ok none →
      handle_delivery decodeB64Key readKeyFile gA gF gE fetchConfig user (some pid) tokens
        = dispatchWith gA gF gE tokens user) ∧
    (∀ e, fetchConfig = Except.error e →
      handle_delivery decodeB64Key readKeyFile gA gF gE fetchConfig user (some pid) tokens
        = dispatchWith gA gF gE tokens user) ∧
    (handle_delivery decodeB64Key readKeyFile gA gF gE fetchConfig user none tokens
      = dispatchWith gA gF gE tokens user) := by
  refine ⟨?_, ?_, ?_, ?_, ?_⟩
  · intro pc pa pf pe hfc hpa hpf hpe
    unfold handle_delivery
    rw [hfc]
    dsimp only
    rw [hpa, hpf, hpe]
  · intro pc e hfc hpa
    unfold handle_delivery
    rw [hfc]
    dsimp only
    rw [hpa]
  · intro hfc
    unfold handle_delivery
    rw [hfc]
  · intro e hfc
    unfold handle_delivery
    rw [hfc]
  · rfl

/-- A per-tenant row with a full credential set. -/
def wTenantFullRow : PlatformDeliveryConfig :=
  { id := 2, platform_id := "tenant1", apns_bundle_id := some "com.t",
    apns_key_id := some "kid", apns_team_id := some "tid", apns_key_path := none,
    apns_key_content := some "KC", fcm_server_key := some "fk",
    resend_api_key := some "rk", resend_from_email := some "rf",
    created_at := 0, updated_at := 0 }

/-- C7 witness: the fully configured tenant row is used exclusively, and a
missing tenant row falls back to the global clients wholesale. -/
theorem delivery_fallback_wholesale_witness :
    handle_delivery wDecode wRead wGlobalApns wGlobalFcm wGlobalEmail
      (Except.ok (some wTenantFullRow)) "0xA" (some "tenant1") [("tok1", "ios")]
      = [DeliveryAction.apnsPush
          { keyContent := "KC", keyId := "kid", teamId := "tid", sandbox := false }
          "com.t" "tok1",
         DeliveryAction.emailSend "rk" "rf" "0xA"] ∧
    handle_delivery wDecode wRead wGlobalApns wGlobalFcm wGlobalEmail
      (Except.ok none) "0xA" (some "tenant1") [("tok1", "ios")]
      = dispatchWith wGlobalApns wGlobalFcm wGlobalEmail [("tok1", "ios")] "0xA" := by
  constructor
  · have h := (delivery_fallback_wholesale wDecode wRead wGlobalApns wGlobalFcm
      wGlobalEmail (Except.ok (some wTenantFullRow)) "0xA" "tenant1" [("tok1", "ios")]).1
      wTenantFullRow
      { client := some { keyContent := "KC", keyId := "kid", teamId := "tid", sandbox := false }
        bundleId := "com.t" }
      { serverKey := some "fk" } { creds := some ("rk", "rf") } rfl (by rfl) rfl rfl
    rw [h]
    rfl
  · exact (delivery_fallback_wholesale wDecode wRead wGlobalApns wGlobalFcm
      wGlobalEmail (Except.ok none) "0xA" "tenant1" [("tok1", "ios")]).2.2.1 rfl

/- ===== C8 : outbound pump data-field extraction (relay-api/src/websocket.rs,
handle_socket; relay-messaging/src/service.rs, emit_ws_event) ===== -/

/-- The field/value pairs `emit_ws_event` XADDs to `STREAM:CHAT:{user}`:
exactly one field, named `data`, holding the JSON payload. -/
def emit_ws_event_fields (payload : String) : List (String × String) :=
  [("data", payload)]

/-- The data-field scan of the outbound pump in `handle_socket`
(websocket.rs lines 98-113): find the first index `i` whose key is `data`
AND with `i + 1 < fields.len()`, then send the value of the pair at
`i + 1` — the next pair, not the matching one. -/
def extractDataField (fields : List (String × String)) : Option String :=
  match fields.enum.find? (fun p => p.2.1 == "data" && decide (p.1 + 1 < fields.length)) with
  | some p => (fields.get? (p.1 + 1)).map (fun q => q.2)
  | none => none

/-- C8: the pump never forwards an entry whose only field is `data` — the
very shape the messaging worker produces — because the scan requires a
further pair after the match; and when a further pair exists it forwards
that pair's value instead of the `data` value. -/
theorem ws_data_field_bug :
    (∀ payload, extractDataField (emit_ws_event_fields payload) = none) ∧
    extractDataField [("data", "payload1"), ("x", "y")] = some "y" := by
  exact ⟨fun payload => rfl, rfl⟩
